import Mathlib

/-!
Shallow embedding of the `actix-rl` rate limiter (crate sources under `src/`).

Conventions of the embedding:

* `chrono::DateTime<Utc>` is modelled as `Int`, a timestamp in seconds since
  the epoch (`DateTime::timestamp` is then the identity); `chrono::Duration`
  is likewise an `Int` number of seconds.  The only operations the crate
  performs on times are `+` of a duration and `<` comparison, which are the
  corresponding `Int` operations.
* `u32` counters are modelled as `Nat`.  The crate never relies on wrap-around
  (`entry.count += val` panics on overflow in the default debug profile), so
  the model covers the panic-free executions.
* The `tokio::sync::Mutex` around `MemStoreInner` serialises the store
  operations; each operation is modelled as a pure function from the inner
  state to (result, new inner state), with the instant `Utc::now()` of the
  call passed explicitly as `now`.
* `HashMap<String, DateCount>` is modelled as an association list with the
  usual lookup / in-place-update / remove operations.
* The middleware's async pipeline (`RateLimitService::call` in
  `src/middleware.rs`) is modelled as a pure function over an abstract store
  model; besides its result it records the ordered trace of the observable
  steps it performs (hook invocations, the store increment, marking the
  re-entrancy guard, forwarding), so that "step X is skipped" is expressible.
-/

namespace ActixRL

/-- `DateCount` (src/store/mem_store.rs): creation time and current count. -/
structure DateCount where
  create_date : Int
  count : Nat
deriving Repr, DecidableEq

/-- `DateCount::default()`: `create_date = Utc::now(), count = 0`, with the
call instant `now` explicit. -/
def DateCount.defaultAt (now : Int) : DateCount :=
  { create_date := now, count := 0 }

/-- `DateCount::expired_at(ttl, instant)`: `create_date + ttl < instant`. -/
def DateCount.expired_at (dc : DateCount) (ttl : Int) (instant : Int) : Bool :=
  decide (dc.create_date + ttl < instant)

/-- `DateCountUntil` (src/store/mem_store.rs): the value returned by the
in-memory store — the stored record plus the window's expiry instant (the source field `until` is a Lean
keyword, hence `until_`). -/
structure DateCountUntil where
  date_count : DateCount
  until_ : Int
deriving Repr, DecidableEq

/-- `Value::count()` for `DateCountUntil`. -/
def DateCountUntil.count (v : DateCountUntil) : Nat :=
  v.date_count.count

/-- `Value::create_date()` for `DateCountUntil`: always `Some`. -/
def DateCountUntil.create_date (v : DateCountUntil) : Option Int :=
  some v.date_count.create_date

/-- `Value::expire_date()` for `DateCountUntil`: always `Some(until)`. -/
def DateCountUntil.expire_date (v : DateCountUntil) : Option Int :=
  some v.until_

/-- In-place update of an association list at `key` (the effect of mutating
the `HashMap` entry for `key`); appends when the key is absent. -/
def updateAssoc (key : String) (v : DateCount) :
    List (String × DateCount) → List (String × DateCount)
  | [] => [(key, v)]
  | (k, w) :: rest =>
    if k == key then (k, v) :: rest else (k, w) :: updateAssoc key v rest

/-- Removal of `key` from an association list (`HashMap::remove`). -/
def removeKey (key : String) :
    List (String × DateCount) → List (String × DateCount)
  | [] => []
  | (k, w) :: rest =>
    if k == key then rest else (k, w) :: removeKey key rest

/-- `MemStoreInner` (src/store/mem_store.rs): the map of records plus the
store's TTL.  (The construction-time `capacity` is only a `HashMap`
allocation hint and has no observable effect.) -/
structure MemStoreInner where
  data : List (String × DateCount)
  ttl : Int
deriving Repr, DecidableEq

/-- `MemStoreInner::incr_by(key, val)` at instant `now`:
look up or default-insert the record, reset it if expired, add `val`,
return the snapshot together with the updated state. -/
def MemStoreInner.incr_by (s : MemStoreInner) (now : Int) (key : String)
    (val : Nat) : DateCountUntil × MemStoreInner :=
  let entry0 := (List.lookup key s.data).getD (DateCount.defaultAt now)
  let entry1 := if entry0.expired_at s.ttl now then DateCount.defaultAt now else entry0
  let entry2 := { entry1 with count := entry1.count + val }
  ({ date_count := entry2, until_ := entry2.create_date + s.ttl },
   { s with data := updateAssoc key entry2 s.data })

/-- `MemStoreInner::del(key)`: remove the record and report it (together with
its would-be expiry) if present.  Note the source performs no expiry check
here — `del` does not even read the clock. -/
def MemStoreInner.del (s : MemStoreInner) (key : String) :
    Option DateCountUntil × MemStoreInner :=
  match List.lookup key s.data with
  | none => (none, s)
  | some entry =>
    (some { date_count := entry, until_ := entry.create_date + s.ttl },
     { s with data := removeKey key s.data })

/-- `MemStoreInner::clear()`. -/
def MemStoreInner.clear (s : MemStoreInner) : MemStoreInner :=
  { s with data := [] }

/-- `Store::incr_by` for `MemStore`: take the lock, run the inner operation,
wrap in `Ok` (the in-memory backend is infallible, `Error = ()`). -/
def MemStore.incr_by (st : MemStoreInner) (now : Int) (key : String)
    (val : Nat) : Except Unit DateCountUntil × MemStoreInner :=
  (Except.ok (st.incr_by now key val).1, (st.incr_by now key val).2)

/-- `Store::incr` for `MemStore`: `incr_by(key, 1)`. -/
def MemStore.incr (st : MemStoreInner) (now : Int) (key : String) :
    Except Unit DateCountUntil × MemStoreInner :=
  MemStore.incr_by st now key 1

/-- The record for `key` is absent, or present but expired at `now`
(the condition under which `incr_by` starts a fresh window). -/
def MemStoreInner.absentOrExpired (s : MemStoreInner) (key : String)
    (now : Int) : Bool :=
  match List.lookup key s.data with
  | none => true
  | some dc => dc.expired_at s.ttl now

/-- `k` successive `incr_by(key, 1)` calls at instant `now` (state only). -/
def MemStoreInner.iterIncr (s : MemStoreInner) (now : Int) (key : String) :
    Nat → MemStoreInner
  | 0 => s
  | Nat.succ k => ((s.iterIncr now key k).incr_by now key 1).2

/-- Run a list of `(key, amount)` increments sequentially at instant `now`,
collecting the returned counts (the shape of the `incr_del` test in
src/store/mem_store.rs). -/
def runIncrs (s : MemStoreInner) (now : Int) :
    List (String × Nat) → List Nat × MemStoreInner
  | [] => ([], s)
  | (k, v) :: rest =>
    let r := s.incr_by now k v
    let rec' := runIncrs r.2 now rest
    (r.1.date_count.count :: rec'.1, rec'.2)

/-- The part of an `actix_web::HttpRequest` the middleware reads:
the peer address (already rendered as an IP string, `peer_addr().ip()`),
the path, and the request-extension slot holding the `RateLimitByPass`
re-entrancy marker (src/utils.rs; `bypass_marker = true` means
`RateLimitByPass::checked` returns `true`). -/
structure HttpRequest where
  peer_addr : Option String
  path : String
  bypass_marker : Bool
deriving Repr, DecidableEq

/-- `RateLimitByPass::check`: attach the marker to the request. -/
def markRequest (req : HttpRequest) : HttpRequest :=
  { req with bypass_marker := true }

/-- The part of an `HttpResponse` the crate constructs: the status code and
the inserted headers. -/
structure HttpResponse where
  status : Nat
  headers : List (String × String)
deriving Repr, DecidableEq

/-- `Error` (src/error.rs): the rate-limited error, carrying the optional
instant at which the limit lifts. -/
inductive Error where
  | RateLimited (until_ : Option Int)
deriving Repr, DecidableEq

/-- `Controller` (src/controller.rs): the five optional hook slots.
`σ` is the store type, `Key` the identifier type, `Err` the store's error
type, `Val` the store's value type. -/
structure Controller (σ Key Err Val : Type) where
  fn_do_rate_limit : Option (HttpRequest → Bool)
  fn_find_identifier : Option (HttpRequest → Key)
  fn_on_rate_limit_error : Option (HttpRequest → Error → HttpResponse)
  fn_on_store_error : Option (HttpRequest → Err → HttpResponse)
  fn_on_success : Option (HttpRequest → σ → Option Val → Unit)

/-- `Controller::new()`: every slot `None`. -/
def Controller.new : Controller σ Key Err Val :=
  { fn_do_rate_limit := none
    fn_find_identifier := none
    fn_on_rate_limit_error := none
    fn_on_store_error := none
    fn_on_success := none }

/-- `default_do_rate_limit` (src/controller.rs): always `true`. -/
def default_do_rate_limit (_ : HttpRequest) : Bool :=
  true

/-- `default_find_identifier` (src/controller.rs): the peer IP as a string,
or the sentinel when unavailable. -/
def default_find_identifier (req : HttpRequest) : String :=
  match req.peer_addr with
  | some ip => ip
  | none => "<Unknown Source IP>"

/-- `DEFAULT_RATE_LIMITED_UNTIL_HEADER` (src/controller.rs). -/
def DEFAULT_RATE_LIMITED_UNTIL_HEADER : String :=
  "X-Rate-Limited-Until"

/-- `default_on_rate_limit_error` (src/controller.rs): a 429 response,
with the `X-Rate-Limited-Until` header (seconds-since-epoch timestamp)
inserted exactly when the error carries an expiry instant. -/
def default_on_rate_limit_error (_ : HttpRequest) (error : Error) :
    HttpResponse :=
  match error with
  | Error.RateLimited until_ =>
    { status := 429
      headers :=
        match until_ with
        | some u => [(DEFAULT_RATE_LIMITED_UNTIL_HEADER, toString u)]
        | none => [] }

/-- `default_on_store_error` (src/controller.rs): a bare 500 response,
discarding the error. -/
def default_on_store_error (_ : HttpRequest) (_ : Err) : HttpResponse :=
  { status := 500, headers := [] }

/-- `Controller::default()` (src/controller.rs, for `Key = String`):
`new()` with the four default hooks installed; `fn_on_success` stays unset. -/
def Controller.defaultController : Controller σ String Err Val :=
  { fn_do_rate_limit := some default_do_rate_limit
    fn_find_identifier := some default_find_identifier
    fn_on_rate_limit_error := some default_on_rate_limit_error
    fn_on_store_error := some default_on_store_error
    fn_on_success := none }

/-- The should-check decision as the middleware computes it
(src/middleware.rs lines 81-86): the installed hook, else the default. -/
def Controller.doRateLimitOf (ctrl : Controller σ Key Err Val)
    (req : HttpRequest) : Bool :=
  match ctrl.fn_do_rate_limit with
  | some f => f req
  | none => default_do_rate_limit req

/-- The rate-limit-error response as the middleware computes it
(src/middleware.rs lines 117-129): the installed hook, else the default. -/
def Controller.onRateLimitErrorOf (ctrl : Controller σ Key Err Val)
    (req : HttpRequest) (err : Error) : HttpResponse :=
  match ctrl.fn_on_rate_limit_error with
  | some f => f req err
  | none => default_on_rate_limit_error req err

/-- The store-error response as the middleware computes it
(src/middleware.rs lines 98-110): the installed hook, else the default. -/
def Controller.onStoreErrorOf (ctrl : Controller σ Key Err Val)
    (req : HttpRequest) (e : Err) : HttpResponse :=
  match ctrl.fn_on_store_error with
  | some f => f req e
  | none => default_on_store_error req e

/-- The interface the pipeline needs from a `Store` (src/store/mod.rs):
`incr` (increment by one, returning the `Value` or the backend error plus the
updated backend state), and the `Value` accessors `count()` / `expire_date()`
used by the middleware. -/
structure StoreModel (σ Key Val Err : Type) where
  incr : σ → Key → Except Err Val × σ
  countOf : Val → Nat
  expireOf : Val → Option Int

/-- `MemStore` as a `StoreModel`, all calls happening at instant `now`. -/
def memStoreModel (now : Int) : StoreModel MemStoreInner String DateCountUntil Unit :=
  { incr := fun st key => MemStore.incr st now key
    countOf := DateCountUntil.count
    expireOf := DateCountUntil.expire_date }

/-- The observable steps of one `RateLimitService::call`, in order.
`evOnSuccess` exists for the `fn_on_success` hook, but `rateLimitCall`
mirrors src/middleware.rs, which contains no call to that hook, so the
event is never emitted. -/
inductive PipeEvent where
  | evDoRateLimit
  | evFindIdentifier
  | evStoreIncr
  | evOnStoreError
  | evOnRateLimitError
  | evOnSuccess
  | evMarkBypass
  | evForward
deriving Repr, DecidableEq

/-- How one pipeline invocation terminated: forwarded to the downstream
handler (whose response type is `Down`), or ended early with the
rate-limit-error or store-error response. -/
inductive PipelineResult (Down : Type) where
  | forwarded (resp : Down)
  | rejected (resp : HttpResponse)
  | storeFailed (resp : HttpResponse)
deriving Repr, DecidableEq

/-- Everything one pipeline invocation produces: the terminal result, the
store state after the call, the request as left by the call (marker possibly
attached), and the ordered trace of observable steps. -/
structure CallOutput (σ Down : Type) where
  result : PipelineResult Down
  store : σ
  request : HttpRequest
  trace : List PipeEvent
deriving Repr, DecidableEq

/-- The common tail of every forwarding path (src/middleware.rs lines
135-141): attach the re-entrancy marker, then invoke the downstream handler
on the marked request and return its response unchanged. -/
def forwardTail (handler : HttpRequest → Down) (req : HttpRequest) (st : σ)
    (tr : List PipeEvent) : CallOutput σ Down :=
  let req' := markRequest req
  { result := PipelineResult.forwarded (handler req')
    store := st
    request := req'
    trace := tr ++ [PipeEvent.evMarkBypass, PipeEvent.evForward] }

/-- `RateLimitService::call` (src/middleware.rs lines 75-143).
If the re-entrancy marker is attached, `!checked && …` short-circuits:
no hook runs and the request is forwarded directly.  Otherwise the
should-check hook decides; if checking, the identifier hook is consulted
(`None` slot ⇒ no identifier ⇒ forward without touching the store), the
store is incremented once, and the count is compared against `max`. -/
def rateLimitCall (sm : StoreModel σ Key Val Err) (ctrl : Controller σ Key Err Val)
    (max : Nat) (handler : HttpRequest → Down) (req : HttpRequest) (st : σ) :
    CallOutput σ Down :=
  if req.bypass_marker then
    forwardTail handler req st []
  else if ctrl.doRateLimitOf req then
    match ctrl.fn_find_identifier with
    | none => forwardTail handler req st [PipeEvent.evDoRateLimit]
    | some fid =>
      match sm.incr st (fid req) with
      | (Except.error e, st') =>
        { result := PipelineResult.storeFailed (ctrl.onStoreErrorOf req e)
          store := st'
          request := req
          trace := [PipeEvent.evDoRateLimit, PipeEvent.evFindIdentifier,
                    PipeEvent.evStoreIncr, PipeEvent.evOnStoreError] }
      | (Except.ok value, st') =>
        if max < sm.countOf value then
          { result := PipelineResult.rejected
              (ctrl.onRateLimitErrorOf req (Error.RateLimited (sm.expireOf value)))
            store := st'
            request := req
            trace := [PipeEvent.evDoRateLimit, PipeEvent.evFindIdentifier,
                      PipeEvent.evStoreIncr, PipeEvent.evOnRateLimitError] }
        else
          forwardTail handler req st'
            [PipeEvent.evDoRateLimit, PipeEvent.evFindIdentifier, PipeEvent.evStoreIncr]
  else
    forwardTail handler req st [PipeEvent.evDoRateLimit]

/-- A controller that keys every request by the fixed identifier `key`
(all other slots unset, so the middleware uses the defaults). -/
def keyController (key : String) :
    Controller MemStoreInner String Unit DateCountUntil :=
  { fn_do_rate_limit := none
    fn_find_identifier := some (fun _ => key)
    fn_on_rate_limit_error := none
    fn_on_store_error := none
    fn_on_success := none }

/-! ### Helper lemmas -/

theorem lookup_updateAssoc_self (key : String) (v : DateCount)
    (l : List (String × DateCount)) :
    List.lookup key (updateAssoc key v l) = some v := by
  induction l with
  | nil => simp [updateAssoc, List.lookup]
  | cons hd tl ih =>
    obtain ⟨k, w⟩ := hd
    by_cases hk : k = key
    · subst hk
      simp [updateAssoc, List.lookup]
    · simp only [updateAssoc, beq_iff_eq, hk, if_false]
      have hk' : (key == k) = false := by
        simp [beq_iff_eq]
        exact fun h => hk h.symm
      simp [List.lookup, hk', ih]

theorem lookup_updateAssoc_ne (key k' : String) (v : DateCount)
    (l : List (String × DateCount)) (h : k' ≠ key) :
    List.lookup k' (updateAssoc key v l) = List.lookup k' l := by
  induction l with
  | nil =>
    have hk : (k' == key) = false := by simp [beq_iff_eq, h]
    simp [updateAssoc, List.lookup, hk]
  | cons hd tl ih =>
    obtain ⟨k, w⟩ := hd
    by_cases hk : k = key
    · subst hk
      have hk' : (k' == k) = false := by simp [beq_iff_eq, h]
      simp [updateAssoc, List.lookup, hk']
    · simp only [updateAssoc, beq_iff_eq, hk, if_false]
      by_cases hq : k' = k
      · subst hq
        simp [List.lookup]
      · have hq' : (k' == k) = false := by simp [beq_iff_eq, hq]
        simp [List.lookup, hq', ih]

theorem incr_by_ttl (s : MemStoreInner) (now : Int) (key : String) (val : Nat) :
    ((s.incr_by now key val).2).ttl = s.ttl :=
  rfl

theorem incr_by_data (s : MemStoreInner) (now : Int) (key : String) (val : Nat) :
    ((s.incr_by now key val).2).data
      = updateAssoc key (s.incr_by now key val).1.date_count s.data :=
  rfl

theorem incr_by_lookup_self (s : MemStoreInner) (now : Int) (key : String)
    (val : Nat) :
    List.lookup key ((s.incr_by now key val).2).data
      = some (s.incr_by now key val).1.date_count := by
  rw [incr_by_data, lookup_updateAssoc_self]

theorem incr_by_lookup_ne (s : MemStoreInner) (now : Int) (key k' : String)
    (val : Nat) (h : k' ≠ key) :
    List.lookup k' ((s.incr_by now key val).2).data = List.lookup k' s.data := by
  rw [incr_by_data, lookup_updateAssoc_ne _ _ _ _ h]

theorem incr_by_fresh (s : MemStoreInner) (key : String) (val : Nat) (now : Int)
    (h : s.absentOrExpired key now = true) :
    (s.incr_by now key val).1
      = { date_count := { create_date := now, count := val }
          until_ := now + s.ttl } := by
  unfold MemStoreInner.absentOrExpired at h
  unfold MemStoreInner.incr_by
  cases hl : List.lookup key s.data with
  | none =>
    simp only [hl, Option.getD_none]
    by_cases hexp : (DateCount.defaultAt now).expired_at s.ttl now = true
    · simp [hexp, DateCount.defaultAt]
    · simp only [Bool.not_eq_true] at hexp
      simp [hexp, DateCount.defaultAt]
  | some dc =>
    rw [hl] at h
    simp only [] at h
    simp only [hl, Option.getD_some]
    simp [h, DateCount.defaultAt]

theorem incr_by_live (s : MemStoreInner) (key : String) (val : Nat) (now : Int)
    (dc : DateCount) (hl : List.lookup key s.data = some dc)
    (hexp : dc.expired_at s.ttl now = false) :
    (s.incr_by now key val).1
      = { date_count := { create_date := dc.create_date, count := dc.count + val }
          until_ := dc.create_date + s.ttl } := by
  unfold MemStoreInner.incr_by
  simp [hl, hexp]

theorem rateLimitCall_marker (sm : StoreModel σ Key Val Err)
    (ctrl : Controller σ Key Err Val) (max : Nat) (handler : HttpRequest → Down)
    (req : HttpRequest) (st : σ) (h : req.bypass_marker = true) :
    rateLimitCall sm ctrl max handler req st = forwardTail handler req st [] := by
  simp [rateLimitCall, h]

theorem rateLimitCall_noid (sm : StoreModel σ Key Val Err)
    (ctrl : Controller σ Key Err Val) (max : Nat) (handler : HttpRequest → Down)
    (req : HttpRequest) (st : σ) (hb : req.bypass_marker = false)
    (hf : ctrl.fn_find_identifier = none) :
    rateLimitCall sm ctrl max handler req st
      = forwardTail handler req st [PipeEvent.evDoRateLimit] := by
  by_cases hd : ctrl.doRateLimitOf req = true
  · simp [rateLimitCall, hb, hd, hf]
  · simp only [Bool.not_eq_true] at hd
    simp [rateLimitCall, hb, hd]

theorem rateLimitCall_err (sm : StoreModel σ Key Val Err)
    (ctrl : Controller σ Key Err Val) (max : Nat) (handler : HttpRequest → Down)
    (req : HttpRequest) (st st' : σ) (fid : HttpRequest → Key) (e : Err)
    (hb : req.bypass_marker = false) (hd : ctrl.doRateLimitOf req = true)
    (hf : ctrl.fn_find_identifier = some fid)
    (hi : sm.incr st (fid req) = (Except.error e, st')) :
    rateLimitCall sm ctrl max handler req st
      = { result := PipelineResult.storeFailed (ctrl.onStoreErrorOf req e)
          store := st'
          request := req
          trace := [PipeEvent.evDoRateLimit, PipeEvent.evFindIdentifier,
                    PipeEvent.evStoreIncr, PipeEvent.evOnStoreError] } := by
  simp [rateLimitCall, hb, hd, hf, hi]

theorem rateLimitCall_ok_le (sm : StoreModel σ Key Val Err)
    (ctrl : Controller σ Key Err Val) (max : Nat) (handler : HttpRequest → Down)
    (req : HttpRequest) (st st' : σ) (fid : HttpRequest → Key) (value : Val)
    (hb : req.bypass_marker = false) (hd : ctrl.doRateLimitOf req = true)
    (hf : ctrl.fn_find_identifier = some fid)
    (hi : sm.incr st (fid req) = (Except.ok value, st'))
    (hc : sm.countOf value ≤ max) :
    rateLimitCall sm ctrl max handler req st
      = forwardTail handler req st'
          [PipeEvent.evDoRateLimit, PipeEvent.evFindIdentifier,
           PipeEvent.evStoreIncr] := by
  have hlt : ¬ max < sm.countOf value := not_lt.mpr hc
  simp [rateLimitCall, hb, hd, hf, hi, hlt]

theorem rateLimitCall_ok_gt (sm : StoreModel σ Key Val Err)
    (ctrl : Controller σ Key Err Val) (max : Nat) (handler : HttpRequest → Down)
    (req : HttpRequest) (st st' : σ) (fid : HttpRequest → Key) (value : Val)
    (hb : req.bypass_marker = false) (hd : ctrl.doRateLimitOf req = true)
    (hf : ctrl.fn_find_identifier = some fid)
    (hi : sm.incr st (fid req) = (Except.ok value, st'))
    (hc : max < sm.countOf value) :
    rateLimitCall sm ctrl max handler req st
      = { result := PipelineResult.rejected
            (ctrl.onRateLimitErrorOf req (Error.RateLimited (sm.expireOf value)))
          store := st'
          request := req
          trace := [PipeEvent.evDoRateLimit, PipeEvent.evFindIdentifier,
                    PipeEvent.evStoreIncr, PipeEvent.evOnRateLimitError] } := by
  simp [rateLimitCall, hb, hd, hf, hi, hc]

theorem iterIncr_ttl (s : MemStoreInner) (now : Int) (key : String) (k : Nat) :
    (s.iterIncr now key k).ttl = s.ttl := by
  induction k with
  | zero => rfl
  | succ k ih => rw [MemStoreInner.iterIncr, incr_by_ttl, ih]

theorem iterIncr_lookup (s : MemStoreInner) (now : Int) (key : String)
    (hfresh : List.lookup key s.data = none) (httl : 0 ≤ s.ttl) (k : Nat) :
    List.lookup key (s.iterIncr now key (k + 1)).data
      = some { create_date := now, count := k + 1 } := by
  induction k with
  | zero =>
    have habs : s.absentOrExpired key now = true := by
      simp [MemStoreInner.absentOrExpired, hfresh]
    show List.lookup key ((s.iterIncr now key 0).incr_by now key 1).2.data = _
    rw [incr_by_lookup_self]
    show some (s.incr_by now key 1).1.date_count = _
    rw [incr_by_fresh s key 1 now habs]
  | succ k ih =>
    show List.lookup key ((s.iterIncr now key (k + 1)).incr_by now key 1).2.data = _
    rw [incr_by_lookup_self]
    have hexp : DateCount.expired_at { create_date := now, count := k + 1 }
        (s.iterIncr now key (k + 1)).ttl now = false := by
      rw [iterIncr_ttl]
      simp only [DateCount.expired_at, decide_eq_false_iff_not, not_lt]
      omega
    rw [incr_by_live _ key 1 now _ ih hexp]

theorem iterIncr_call_result (s : MemStoreInner) (now : Int) (key : String)
    (hfresh : List.lookup key s.data = none) (httl : 0 ≤ s.ttl) (k : Nat) :
    ((s.iterIncr now key k).incr_by now key 1).1
      = { date_count := { create_date := now, count := k + 1 }
          until_ := now + s.ttl } := by
  cases k with
  | zero =>
    have habs : (s.iterIncr now key 0).absentOrExpired key now = true := by
      simp [MemStoreInner.iterIncr, MemStoreInner.absentOrExpired, hfresh]
    rw [incr_by_fresh _ key 1 now habs]
    rfl
  | succ k =>
    have hl := iterIncr_lookup s now key hfresh httl k
    have hexp : DateCount.expired_at { create_date := now, count := k + 1 }
        (s.iterIncr now key (k + 1)).ttl now = false := by
      rw [iterIncr_ttl]
      simp only [DateCount.expired_at, decide_eq_false_iff_not, not_lt]
      omega
    rw [incr_by_live _ key 1 now _ hl hexp, iterIncr_ttl]

/-! ### Claim theorems -/

/-- C1: an increment for a key whose record is absent or expired
(`creation_instant + ttl < now`) first resets the record to
`creation_instant = now, count = 0` and then adds the amount, so the returned
snapshot is exactly `(now, amount)`; in particular, with TTL `T`, an
increment at `now` on a fresh key followed by an increment at `now + T + ε`
(`ε > 0`) returns count 1 on the second call. -/
theorem incr_by_resets_absent_or_expired
    (s : MemStoreInner) (key : String) (val : Nat) (now : Int)
    (h : s.absentOrExpired key now = true) :
    (s.incr_by now key val).1
      = { date_count := { create_date := now, count := val }
          until_ := now + s.ttl }
    ∧ (s.incr_by now key val).1.date_count.count = val
    ∧ (∀ T ε : Int, s.ttl = T → 0 < ε → List.lookup key s.data = none →
        (((s.incr_by now key 1).2).incr_by (now + T + ε) key 1).1.date_count.count
          = 1) := by
  refine ⟨incr_by_fresh s key val now h, ?_, ?_⟩
  · rw [incr_by_fresh s key val now h]
  · intro T ε hT hε hfresh
    have habs : s.absentOrExpired key now = true := by
      simp [MemStoreInner.absentOrExpired, hfresh]
    have h1 : (s.incr_by now key 1).1
        = { date_count := { create_date := now, count := 1 }
            until_ := now + s.ttl } := incr_by_fresh s key 1 now habs
    have hl : List.lookup key ((s.incr_by now key 1).2).data
        = some { create_date := now, count := 1 } := by
      rw [incr_by_lookup_self, h1]
    have hexp : DateCount.expired_at { create_date := now, count := 1 }
        ((s.incr_by now key 1).2).ttl (now + T + ε) = true := by
      rw [incr_by_ttl, hT]
      simp only [DateCount.expired_at, decide_eq_true_eq]
      omega
    have habs2 : ((s.incr_by now key 1).2).absentOrExpired key (now + T + ε)
        = true := by
      simp [MemStoreInner.absentOrExpired, hl, hexp]
    rw [incr_by_fresh _ key 1 _ habs2]

/-- Fixture: an empty in-memory store with TTL 5 seconds. -/
def wStore : MemStoreInner :=
  { data := [], ttl := 5 }

/-- Witness for C1 at the empty store, key `"John"`, amount 2, instant 0. -/
theorem incr_by_resets_absent_or_expired_witness :
    wStore.absentOrExpired "John" 0 = true
    ∧ ((wStore.incr_by 0 "John" 2).1
        = { date_count := { create_date := 0, count := 2 }
            until_ := 0 + wStore.ttl }
      ∧ (wStore.incr_by 0 "John" 2).1.date_count.count = 2
      ∧ (∀ T ε : Int, wStore.ttl = T → 0 < ε →
          List.lookup "John" wStore.data = none →
          (((wStore.incr_by 0 "John" 1).2).incr_by (0 + T + ε) "John" 1).1.date_count.count
            = 1)) :=
  ⟨by decide, incr_by_resets_absent_or_expired wStore "John" 2 0 (by decide)⟩

/-- C2: two successive increments on the same key with no expiry in between
(the second call finds the record live) return counts related by
`second = first + amount`; hence the reported count never decreases, and it
strictly increases whenever the amount is positive (in particular for
`increment`, whose amount is 1). -/
theorem incr_counts_monotone_within_window
    (s : MemStoreInner) (key : String) (v1 v2 : Nat) (t1 t2 : Int)
    (h : ((s.incr_by t1 key v1).2).absentOrExpired key t2 = false) :
    (((s.incr_by t1 key v1).2).incr_by t2 key v2).1.date_count.count
      = (s.incr_by t1 key v1).1.date_count.count + v2
    ∧ (s.incr_by t1 key v1).1.date_count.count
        ≤ (((s.incr_by t1 key v1).2).incr_by t2 key v2).1.date_count.count
    ∧ (0 < v2 →
        (s.incr_by t1 key v1).1.date_count.count
          < (((s.incr_by t1 key v1).2).incr_by t2 key v2).1.date_count.count) := by
  have hl : List.lookup key ((s.incr_by t1 key v1).2).data
      = some (s.incr_by t1 key v1).1.date_count := incr_by_lookup_self s t1 key v1
  have hexp : DateCount.expired_at (s.incr_by t1 key v1).1.date_count
      ((s.incr_by t1 key v1).2).ttl t2 = false := by
    unfold MemStoreInner.absentOrExpired at h
    rw [hl] at h
    simpa using h
  have heq := incr_by_live ((s.incr_by t1 key v1).2) key v2 t2 _ hl hexp
  rw [heq]
  refine ⟨rfl, Nat.le_add_right _ _, fun hv => ?_⟩
  exact Nat.lt_add_of_pos_right hv

/-- Witness for C2: empty store with TTL 10, two increments by 1 at
instants 0 and 3. -/
theorem incr_counts_monotone_within_window_witness :
    (((wStore.incr_by 0 "a" 1).2).absentOrExpired "a" 3 = false)
    ∧ ((((wStore.incr_by 0 "a" 1).2).incr_by 3 "a" 1).1.date_count.count
        = (wStore.incr_by 0 "a" 1).1.date_count.count + 1
      ∧ (wStore.incr_by 0 "a" 1).1.date_count.count
          ≤ (((wStore.incr_by 0 "a" 1).2).incr_by 3 "a" 1).1.date_count.count
      ∧ (0 < 1 →
          (wStore.incr_by 0 "a" 1).1.date_count.count
            < (((wStore.incr_by 0 "a" 1).2).incr_by 3 "a" 1).1.date_count.count)) :=
  ⟨by decide, incr_counts_monotone_within_window wStore "a" 1 1 0 3 (by decide)⟩

/-- C10: `del` applies no expiry rule — for a key present in the map whose
record is expired at `now`, `del` still returns `Some` of the stale record
(count and dates), never treating it as absent. -/
theorem del_returns_expired_record
    (s : MemStoreInner) (key : String) (dc : DateCount) (now : Int)
    (hl : List.lookup key s.data = some dc)
    (_hexp : dc.expired_at s.ttl now = true) :
    (s.del key).1 = some { date_count := dc, until_ := dc.create_date + s.ttl }
    ∧ (s.del key).1 ≠ none := by
  unfold MemStoreInner.del
  simp [hl]

/-- Fixture: a store holding an expired record for `"k"`. -/
def staleStore : MemStoreInner :=
  { data := [("k", { create_date := 0, count := 5 })], ttl := 10 }

/-- Witness for C10: the record `("k", (0, 5))` is expired at instant 100
(0 + 10 < 100), yet `del` reports it. -/
theorem del_returns_expired_record_witness :
    List.lookup "k" staleStore.data = some { create_date := 0, count := 5 }
    ∧ DateCount.expired_at { create_date := 0, count := 5 } staleStore.ttl 100
        = true
    ∧ ((staleStore.del "k").1
        = some { date_count := { create_date := 0, count := 5 }
                 until_ := (0 : Int) + staleStore.ttl }
      ∧ (staleStore.del "k").1 ≠ none) :=
  ⟨by decide, by decide,
    del_returns_expired_record staleStore "k" { create_date := 0, count := 5 }
      100 (by decide) (by decide)⟩

/-- Fixture: a downstream handler echoing the request path. -/
def wHandler : HttpRequest → String := fun r => r.path

/-- Fixture: an unmarked request from peer `1.2.3.4`. -/
def wReq : HttpRequest :=
  { peer_addr := some "1.2.3.4", path := "/", bypass_marker := false }

/-- Fixture: the same request already carrying the re-entrancy marker. -/
def wReqMarked : HttpRequest :=
  { peer_addr := some "1.2.3.4", path := "/", bypass_marker := true }

/-- C4: a request already carrying the re-entrancy marker is forwarded
directly — the trace holds no should-check, identifier-extraction or
store-increment step, and the store state is returned unchanged. -/
theorem bypass_marker_skips_pipeline (sm : StoreModel σ Key Val Err)
    (ctrl : Controller σ Key Err Val) (max : Nat) (handler : HttpRequest → Down)
    (req : HttpRequest) (st : σ) (h : req.bypass_marker = true) :
    rateLimitCall sm ctrl max handler req st
      = { result := PipelineResult.forwarded (handler (markRequest req))
          store := st
          request := markRequest req
          trace := [PipeEvent.evMarkBypass, PipeEvent.evForward] } := by
  rw [rateLimitCall_marker sm ctrl max handler req st h]
  rfl

/-- Witness for C4: a marked request against the in-memory store; the store
state comes back unchanged. -/
theorem bypass_marker_skips_pipeline_witness :
    wReqMarked.bypass_marker = true
    ∧ rateLimitCall (memStoreModel 0) Controller.defaultController 10 wHandler
        wReqMarked wStore
      = { result := PipelineResult.forwarded (wHandler (markRequest wReqMarked))
          store := wStore
          request := markRequest wReqMarked
          trace := [PipeEvent.evMarkBypass, PipeEvent.evForward] } :=
  ⟨rfl, bypass_marker_skips_pipeline (memStoreModel 0) Controller.defaultController
    10 wHandler wReqMarked wStore rfl⟩

/-- C5 (against the claim): `RateLimitService::call` in src/middleware.rs
contains no invocation of the `fn_on_success` hook on any path — the trace of
the pipeline never holds the `on_success` step, for every store, controller,
threshold, handler, request and store state. -/
theorem on_success_hook_never_invoked (sm : StoreModel σ Key Val Err)
    (ctrl : Controller σ Key Err Val) (max : Nat) (handler : HttpRequest → Down)
    (req : HttpRequest) (st : σ) :
    PipeEvent.evOnSuccess ∉ (rateLimitCall sm ctrl max handler req st).trace := by
  cases hb : req.bypass_marker with
  | true => simp [rateLimitCall, hb, forwardTail]
  | false =>
    cases hd : ctrl.doRateLimitOf req with
    | false => simp [rateLimitCall, hb, hd, forwardTail]
    | true =>
      cases hf : ctrl.fn_find_identifier with
      | none => simp [rateLimitCall, hb, hd, hf, forwardTail]
      | some fid =>
        cases hi : sm.incr st (fid req) with
        | mk r st' =>
          cases r with
          | error e => simp [rateLimitCall, hb, hd, hf, hi, forwardTail]
          | ok value =>
            by_cases hc : max < sm.countOf value
            · simp [rateLimitCall, hb, hd, hf, hi, hc, forwardTail]
            · simp [rateLimitCall, hb, hd, hf, hi, hc, forwardTail]

/-- Fixture: a store model whose increment always fails (a failing remote
backend with a string transport error), over a unit state. -/
def failStoreModel : StoreModel Unit String DateCountUntil String :=
  { incr := fun st _ => (Except.error "connection refused", st)
    countOf := DateCountUntil.count
    expireOf := DateCountUntil.expire_date }

/-- Fixture: a controller whose only installed slot keys every request by
the constant identifier `"ip"`. -/
def failCtrl : Controller Unit String String DateCountUntil :=
  { fn_do_rate_limit := none
    fn_find_identifier := some (fun _ => "ip")
    fn_on_rate_limit_error := none
    fn_on_store_error := none
    fn_on_success := none }

/-- C7: when the store increment fails, the pipeline returns the
`on_store_error` hook's response at once — the downstream handler is never
invoked — and with the slot unset the response is the bare 500, whatever the
error value was. -/
theorem store_error_returns_hook_response (sm : StoreModel σ Key Val Err)
    (ctrl : Controller σ Key Err Val) (max : Nat) (handler : HttpRequest → Down)
    (req : HttpRequest) (st st' : σ) (fid : HttpRequest → Key) (e : Err)
    (hb : req.bypass_marker = false) (hd : ctrl.doRateLimitOf req = true)
    (hf : ctrl.fn_find_identifier = some fid)
    (hi : sm.incr st (fid req) = (Except.error e, st')) :
    rateLimitCall sm ctrl max handler req st
      = { result := PipelineResult.storeFailed (ctrl.onStoreErrorOf req e)
          store := st'
          request := req
          trace := [PipeEvent.evDoRateLimit, PipeEvent.evFindIdentifier,
                    PipeEvent.evStoreIncr, PipeEvent.evOnStoreError] }
    ∧ (∀ d : Down, (rateLimitCall sm ctrl max handler req st).result
        ≠ PipelineResult.forwarded d)
    ∧ (ctrl.fn_on_store_error = none →
        ctrl.onStoreErrorOf req e = { status := 500, headers := [] }) := by
  have heq := rateLimitCall_err sm ctrl max handler req st st' fid e hb hd hf hi
  refine ⟨heq, fun d => ?_, fun hnone => ?_⟩
  · rw [heq]
    simp
  · simp [Controller.onStoreErrorOf, hnone, default_on_store_error]

/-- Witness for C7: the always-failing store with all response hooks unset
produces the storeFailed result carrying the default 500. -/
theorem store_error_returns_hook_response_witness :
    (wReq.bypass_marker = false
      ∧ failCtrl.doRateLimitOf wReq = true
      ∧ failCtrl.fn_find_identifier = some (fun _ => "ip")
      ∧ failStoreModel.incr () "ip" = (Except.error "connection refused", ()))
    ∧ rateLimitCall failStoreModel failCtrl 10 wHandler wReq ()
      = { result := PipelineResult.storeFailed
            (failCtrl.onStoreErrorOf wReq "connection refused")
          store := ()
          request := wReq
          trace := [PipeEvent.evDoRateLimit, PipeEvent.evFindIdentifier,
                    PipeEvent.evStoreIncr, PipeEvent.evOnStoreError] }
    ∧ failCtrl.onStoreErrorOf wReq "connection refused"
        = { status := 500, headers := [] } :=
  ⟨⟨rfl, rfl, rfl, rfl⟩,
    (store_error_returns_hook_response failStoreModel failCtrl 10 wHandler wReq
      () () (fun _ => "ip") "connection refused" rfl rfl rfl rfl).1,
    (store_error_returns_hook_response failStoreModel failCtrl 10 wHandler wReq
      () () (fun _ => "ip") "connection refused" rfl rfl rfl rfl).2.2 rfl⟩

/-- C8: the default rate-limit-error response has status 429, and its headers
consist of exactly the `X-Rate-Limited-Until` entry (carrying the expiry's
seconds-since-epoch timestamp rendered as a string) when the error holds an
expiry, and are empty — the header absent — when it does not. -/
theorem default_rate_limit_error_is_429_with_header (req : HttpRequest)
    (until_ : Option Int) :
    (default_on_rate_limit_error req (Error.RateLimited until_)).status = 429
    ∧ (default_on_rate_limit_error req (Error.RateLimited until_)).headers
        = (match until_ with
           | some u => [(DEFAULT_RATE_LIMITED_UNTIL_HEADER, toString u)]
           | none => [])
    ∧ ((∃ v, (DEFAULT_RATE_LIMITED_UNTIL_HEADER, v)
          ∈ (default_on_rate_limit_error req (Error.RateLimited until_)).headers)
        ↔ until_.isSome = true) := by
  cases until_ <;> simp [default_on_rate_limit_error]

/-- Fixture: all default slots installed except `find_identifier`, which is
left unset. -/
def noIdCtrl : Controller MemStoreInner String Unit DateCountUntil :=
  { fn_do_rate_limit := some default_do_rate_limit
    fn_find_identifier := none
    fn_on_rate_limit_error := some default_on_rate_limit_error
    fn_on_store_error := some default_on_store_error
    fn_on_success := none }

/-- C6 counterexample: with `find_identifier` unset (and the should-check
hook answering `true`), the pipeline performs NO store increment — the store
comes back unchanged and the trace holds no increment step — and simply
forwards, contradicting the claim that it would key the request by the peer
address and still increment and compare. -/
theorem find_identifier_unset_no_increment_cex :
    (rateLimitCall (memStoreModel 0) noIdCtrl 10 wHandler wReq wStore).store
      = wStore
    ∧ PipeEvent.evStoreIncr
        ∉ (rateLimitCall (memStoreModel 0) noIdCtrl 10 wHandler wReq wStore).trace
    ∧ (rateLimitCall (memStoreModel 0) noIdCtrl 10 wHandler wReq wStore).result
        = PipelineResult.forwarded (wHandler (markRequest wReq)) := by
  refine ⟨rfl, ?_, rfl⟩
  have ht : (rateLimitCall (memStoreModel 0) noIdCtrl 10 wHandler wReq wStore).trace
      = [PipeEvent.evDoRateLimit, PipeEvent.evMarkBypass, PipeEvent.evForward] := rfl
  rw [ht]
  simp

/-- C6 amended: an unset should-check, rate-limit-error or store-error slot
falls back to its documented default inside the pipeline, but an unset
`find_identifier` slot has no default there: no identifier is resolved, the
store increment and threshold comparison are skipped entirely, and the
request is forwarded with the store unchanged (`default_find_identifier` only
takes effect when installed, e.g. by `Controller::default()`). -/
theorem unset_hooks_defaults_except_find_identifier
    (sm : StoreModel σ Key Val Err) (ctrl : Controller σ Key Err Val) (max : Nat)
    (handler : HttpRequest → Down) (req : HttpRequest) (st : σ) (e : Err)
    (err : Error) :
    (ctrl.fn_do_rate_limit = none →
      ctrl.doRateLimitOf req = default_do_rate_limit req)
    ∧ (ctrl.fn_on_rate_limit_error = none →
      ctrl.onRateLimitErrorOf req err = default_on_rate_limit_error req err)
    ∧ (ctrl.fn_on_store_error = none →
      ctrl.onStoreErrorOf req e = default_on_store_error req e)
    ∧ (req.bypass_marker = false → ctrl.fn_find_identifier = none →
      rateLimitCall sm ctrl max handler req st
        = forwardTail handler req st [PipeEvent.evDoRateLimit]) := by
  refine ⟨fun h => ?_, fun h => ?_, fun h => ?_, fun hb hf => ?_⟩
  · simp [Controller.doRateLimitOf, h]
  · simp [Controller.onRateLimitErrorOf, h]
  · simp [Controller.onStoreErrorOf, h]
  · exact rateLimitCall_noid sm ctrl max handler req st hb hf

/-- Witness for the amended C6, at a controller with every slot unset. -/
theorem unset_hooks_defaults_except_find_identifier_witness :
    ((Controller.new : Controller MemStoreInner String Unit DateCountUntil).doRateLimitOf wReq
       = default_do_rate_limit wReq)
    ∧ ((Controller.new : Controller MemStoreInner String Unit DateCountUntil).onRateLimitErrorOf
         wReq (Error.RateLimited none)
       = default_on_rate_limit_error wReq (Error.RateLimited none))
    ∧ ((Controller.new : Controller MemStoreInner String Unit DateCountUntil).onStoreErrorOf wReq ()
       = default_on_store_error wReq ())
    ∧ (rateLimitCall (memStoreModel 0)
         (Controller.new : Controller MemStoreInner String Unit DateCountUntil)
         10 wHandler wReq wStore
       = forwardTail wHandler wReq wStore [PipeEvent.evDoRateLimit]) := by
  have h := unset_hooks_defaults_except_find_identifier (memStoreModel 0)
    (Controller.new : Controller MemStoreInner String Unit DateCountUntil)
    10 wHandler wReq wStore () (Error.RateLimited none)
  exact ⟨h.1 rfl, h.2.1 rfl, h.2.2.1 rfl, h.2.2.2 rfl rfl⟩

/-- C3: when the pipeline reaches the store increment and it succeeds, a
count at or below the threshold forwards the request to the downstream
handler while a count above it returns the rate-limit-error response without
forwarding; consequently, starting a fresh window with `max_count = N`, every
one of the first `N` increment-by-one requests is forwarded and the
`(N+1)`-th is rejected with the default 429 carrying the window's expiry. -/
theorem threshold_allow_reject (sm : StoreModel σ Key Val Err)
    (ctrl : Controller σ Key Err Val) (max : Nat) (handler : HttpRequest → Down)
    (req : HttpRequest) (st st' : σ) (fid : HttpRequest → Key) (value : Val)
    (hb : req.bypass_marker = false) (hd : ctrl.doRateLimitOf req = true)
    (hf : ctrl.fn_find_identifier = some fid)
    (hi : sm.incr st (fid req) = (Except.ok value, st')) :
    (sm.countOf value ≤ max →
      rateLimitCall sm ctrl max handler req st
        = { result := PipelineResult.forwarded (handler (markRequest req))
            store := st'
            request := markRequest req
            trace := [PipeEvent.evDoRateLimit, PipeEvent.evFindIdentifier,
                      PipeEvent.evStoreIncr, PipeEvent.evMarkBypass,
                      PipeEvent.evForward] })
    ∧ (max < sm.countOf value →
      rateLimitCall sm ctrl max handler req st
        = { result := PipelineResult.rejected
              (ctrl.onRateLimitErrorOf req
                (Error.RateLimited (sm.expireOf value)))
            store := st'
            request := req
            trace := [PipeEvent.evDoRateLimit, PipeEvent.evFindIdentifier,
                      PipeEvent.evStoreIncr, PipeEvent.evOnRateLimitError] })
    ∧ (∀ (N : Nat) (key : String) (now : Int) (s0 : MemStoreInner)
         (down : HttpRequest → Nat) (r : HttpRequest),
        List.lookup key s0.data = none → 0 ≤ s0.ttl → r.bypass_marker = false →
        (∀ k, k < N →
          (rateLimitCall (memStoreModel now) (keyController key) N down r
              (s0.iterIncr now key k)).result
            = PipelineResult.forwarded (down (markRequest r)))
        ∧ (rateLimitCall (memStoreModel now) (keyController key) N down r
              (s0.iterIncr now key N)).result
            = PipelineResult.rejected
                (default_on_rate_limit_error r
                  (Error.RateLimited (some (now + s0.ttl))))) := by
  refine ⟨fun hc => ?_, fun hc => ?_, ?_⟩
  · rw [rateLimitCall_ok_le sm ctrl max handler req st st' fid value hb hd hf hi hc]
    rfl
  · exact rateLimitCall_ok_gt sm ctrl max handler req st st' fid value hb hd hf hi hc
  · intro N key now s0 down r hfresh httl hbm
    have hval : ∀ k : Nat,
        ((s0.iterIncr now key k).incr_by now key 1).1
          = { date_count := { create_date := now, count := k + 1 }
              until_ := now + s0.ttl } :=
      iterIncr_call_result s0 now key hfresh httl
    have hstep : ∀ k : Nat,
        (memStoreModel now).incr (s0.iterIncr now key k) ((fun _ => key) r)
          = (Except.ok ((s0.iterIncr now key k).incr_by now key 1).1,
             s0.iterIncr now key (k + 1)) := fun k => rfl
    constructor
    · intro k hk
      have hle : (memStoreModel now).countOf
          ((s0.iterIncr now key k).incr_by now key 1).1 ≤ N := by
        rw [hval k]
        show k + 1 ≤ N
        omega
      rw [rateLimitCall_ok_le (memStoreModel now) (keyController key) N down r
        (s0.iterIncr now key k) (s0.iterIncr now key (k + 1)) (fun _ => key)
        ((s0.iterIncr now key k).incr_by now key 1).1 hbm rfl rfl (hstep k) hle]
      rfl
    · have hgt : N < (memStoreModel now).countOf
          ((s0.iterIncr now key N).incr_by now key 1).1 := by
        rw [hval N]
        show N < N + 1
        omega
      rw [rateLimitCall_ok_gt (memStoreModel now) (keyController key) N down r
        (s0.iterIncr now key N) (s0.iterIncr now key (N + 1)) (fun _ => key)
        ((s0.iterIncr now key N).incr_by now key 1).1 hbm rfl rfl (hstep N) hgt]
      rw [hval N]
      rfl

/-- Witness for C3: fresh window, threshold 1, first increment (count 1 ≤ 1)
forwards. -/
theorem threshold_allow_reject_witness :
    (wReq.bypass_marker = false
      ∧ (keyController "ip").doRateLimitOf wReq = true
      ∧ (keyController "ip").fn_find_identifier = some (fun _ => "ip")
      ∧ (memStoreModel 0).incr wStore "ip"
          = (Except.ok { date_count := { create_date := 0, count := 1 }
                         until_ := 5 },
             { data := [("ip", { create_date := 0, count := 1 })], ttl := 5 }))
    ∧ rateLimitCall (memStoreModel 0) (keyController "ip") 1 wHandler wReq wStore
      = { result := PipelineResult.forwarded (wHandler (markRequest wReq))
          store := { data := [("ip", { create_date := 0, count := 1 })], ttl := 5 }
          request := markRequest wReq
          trace := [PipeEvent.evDoRateLimit, PipeEvent.evFindIdentifier,
                    PipeEvent.evStoreIncr, PipeEvent.evMarkBypass,
                    PipeEvent.evForward] } :=
  ⟨⟨rfl, rfl, rfl, rfl⟩,
    (threshold_allow_reject (memStoreModel 0) (keyController "ip") 1 wHandler
      wReq wStore
      { data := [("ip", { create_date := 0, count := 1 })], ttl := 5 }
      (fun _ => "ip")
      { date_count := { create_date := 0, count := 1 }, until_ := 5 }
      rfl rfl rfl rfl).1 (by decide)⟩

/-- Fixture: the fresh store of the `incr_del` test (TTL 100000 seconds;
the capacity argument 8 is only an allocation hint). -/
def c9store : MemStoreInner :=
  { data := [], ttl := 100000 }

/-- C9 counterexample: in the fresh store, incrementing `"Meg"` by 3 four
times returns the counts `[3, 6, 9, 12]` — the fourth is 12, not the claimed
13 (the repository's test reaches 13 because its fourth `"Meg"` increment is
by 4, not by 3). -/
theorem meg_by_three_four_times_cex :
    (runIncrs c9store 0 [("Meg", 3), ("Meg", 3), ("Meg", 3), ("Meg", 3)]).1
      = [3, 6, 9, 12]
    ∧ (runIncrs c9store 0 [("Meg", 3), ("Meg", 3), ("Meg", 3), ("Meg", 3)]).1
      ≠ [3, 6, 9, 13] := by
  constructor
  · decide
  · decide

/-- C9 amended: in the fresh store with TTL 100000s, the sequential
increments of `"John"` by `[1, 1, 1, 2]` return counts `[1, 2, 3, 5]`, and
the subsequent increments of the independent key `"Meg"` by `[3, 3, 3, 4]`
(the amounts the repository's test actually uses) return `[3, 6, 9, 13]`,
all in one shared store; in general an increment on one key leaves the
record of every other key untouched, so neither key's counts are affected by
the other's operations. -/
theorem test_scenario_counts_and_isolation :
    (runIncrs c9store 0
        [("John", 1), ("John", 1), ("John", 1), ("John", 2),
         ("Meg", 3), ("Meg", 3), ("Meg", 3), ("Meg", 4)]).1
      = [1, 2, 3, 5, 3, 6, 9, 13]
    ∧ (∀ (s : MemStoreInner) (now : Int) (a b : String) (v : Nat), a ≠ b →
        List.lookup b ((s.incr_by now a v).2).data = List.lookup b s.data) := by
  refine ⟨by decide, fun s now a b v hab => ?_⟩
  exact incr_by_lookup_ne s now a b v (Ne.symm hab)

/-- Witness for the amended C9: incrementing `"John"` does not change the
stored record of `"Meg"`. -/
theorem test_scenario_counts_and_isolation_witness :
    "John" ≠ "Meg"
    ∧ List.lookup "Meg" ((c9store.incr_by 0 "John" 1).2).data
        = List.lookup "Meg" c9store.data :=
  ⟨by decide,
    test_scenario_counts_and_isolation.2 c9store 0 "John" "Meg" 1 (by decide)⟩

end ActixRL
